import Mathlib

/-!
Verification of the personal-finance-dashboard repository.

The repository has two Python source files:
  * `build_db.py` — ingestion/normalisation: reads monthly CSV files, repairs
    single-column exports, validates the canonical header, cleans fields,
    extracts Accounts/Categories dimension tables with surrogate keys, joins
    them back onto the transactions and writes three tables.
  * `app.py` — reporting view: loads the three-table join, lower-cases the
    `type` column, derives a `year_month` bucket, applies a month / date-range /
    category / account filter pipeline, computes summary metrics and offers a
    CSV export of the filtered rows.

The embedding below is shallow: Python strings are modelled as `List Char`
(so every text operation is an executable structural function), pandas cells
as `Option` (with `none` for NaN / missing), amounts as `ℚ`, and fallible
steps as `Except`.
-/

deriving instance DecidableEq for Except

namespace FinDash

/-- Text values: Python strings modelled as lists of characters. -/
abbrev Str := List Char

/-- Coerce a Lean string literal to the `Str` model. -/
def chars (s : String) : Str := s.data

/-- One pandas cell: `none` models NaN / a missing value. -/
abbrev Cell := Option Str

/-- Python `c.isspace()` for the whitespace characters handled by `str.strip`
    (space, tab, newline, carriage return). -/
def isWS (c : Char) : Bool := c = ' ' || c = '\t' || c = '\n' || c = '\r'

/-- Python `s.strip()`: drop leading and trailing whitespace. -/
def trimStr (s : Str) : Str :=
  ((s.dropWhile isWS).reverse.dropWhile isWS).reverse

/-- Python `s.lower()` (`pandas Series.str.lower`), ASCII case folding as in
    `Char.toLower`. -/
def strToLower (s : Str) : Str := s.map Char.toLower

/-- Split a string at every occurrence of the separator character; models
    Python `s.split(sep)` for a one-character separator.  The accumulator
    holds the current field reversed. -/
def splitOnCharAux (sep : Char) : Str → Str → List Str
  | [], acc => [acc.reverse]
  | c :: rest, acc =>
      if c = sep then acc.reverse :: splitOnCharAux sep rest []
      else splitOnCharAux sep rest (c :: acc)

/-- Python `s.split(sep)` for a one-character separator. -/
def splitOnChar (sep : Char) (s : Str) : List Str := splitOnCharAux sep s []

/-- Decimal digit test, ASCII. -/
def isDigitCh (c : Char) : Bool := '0' ≤ c && c ≤ '9'

/-- Numeric value of a non-empty all-digit string; `none` otherwise. -/
def parseNatDigits (s : Str) : Option Nat :=
  if s ≠ [] ∧ s.all isDigitCh then
    some (s.foldl (fun acc c => acc * 10 + (c.toNat - 48)) 0)
  else none

/-- A calendar date. -/
structure Date where
  year : Nat
  month : Nat
  day : Nat
deriving DecidableEq

/-- Chronological (lexicographic) comparison of dates. -/
def dateLe (a b : Date) : Bool :=
  Nat.blt a.year b.year ||
    (a.year == b.year &&
      (Nat.blt a.month b.month ||
        (a.month == b.month && Nat.ble a.day b.day)))

/-- Models `pd.to_datetime(cell, errors="coerce")` on the ISO `YYYY-MM-DD`
    dates used by the input files: a missing cell or any string that is not a
    plausible ISO date coerces to `none` (NaT) instead of raising. -/
def parseDate (c : Cell) : Option Date :=
  match c with
  | none => none
  | some s =>
      match splitOnChar '-' (trimStr s) with
      | [y, m, d] =>
          match parseNatDigits y, parseNatDigits m, parseNatDigits d with
          | some yv, some mv, some dv =>
              if 1 ≤ mv ∧ mv ≤ 12 ∧ 1 ≤ dv ∧ dv ≤ 31 then
                some ⟨yv, mv, dv⟩
              else none
          | _, _, _ => none
      | _ => none

/-- Models `pd.to_numeric(cell, errors="coerce")` on plain decimal literals
    (optional leading minus, digits, optional fractional part): a missing cell
    or an unparsable string coerces to `none` (NaN) instead of raising. -/
def parseAmount (c : Cell) : Option ℚ :=
  match c with
  | none => none
  | some s =>
      let t := trimStr s
      let signed : Bool × Str :=
        match t with
        | '-' :: r => (true, r)
        | _ => (false, t)
      let body := signed.2
      let mk : Nat → Nat → Nat → ℚ := fun ip fp k =>
        let mag : ℚ := (ip : ℚ) + (fp : ℚ) / ((10 : ℚ) ^ k)
        if signed.1 then -mag else mag
      match splitOnChar '.' body with
      | [ip] =>
          match parseNatDigits ip with
          | some ipv => some (mk ipv 0 0)
          | none => none
      | [ip, fp] =>
          match parseNatDigits ip, parseNatDigits fp with
          | some ipv, some fpv => some (mk ipv fpv fp.length)
          | _, _ => none
      | _ => none

/-- Python `str(cell).strip()` over a pandas object cell, as applied by
    `build_db.py` to the four text columns: a NaN cell is rendered by
    `astype(str)` as the literal string `"nan"`, any other cell is kept and
    trimmed. -/
def cleanStr : Cell → Str
  | none => chars "nan"
  | some s => trimStr s

/-- One raw CSV data row: a list of cells. -/
abbrev RawRow := List Cell

/-- An input CSV file as read by `pd.read_csv`: a file name, the header
    (column names) and the data rows. -/
structure CSVFile where
  name : Str
  header : List Str
  rows : List RawRow
deriving DecidableEq

/-- The canonical header `EXPECTED_COLUMNS` of `build_db.py`. -/
def EXPECTED_COLUMNS : List Str :=
  [chars "transaction_id", chars "date", chars "account_name",
   chars "category_name", chars "type", chars "amount", chars "description"]

/-- The fatal errors of the ingestion run. `noInputFiles` is the
    `FileNotFoundError` for an empty input directory, `columnMismatch` the
    `ValueError` "Column mismatch in <file>" (it records the offending file's
    name), and `lengthMismatch` the pandas `ValueError` raised by assigning 7
    column names to a frame of a different width (it does not name the file). -/
inductive IngestError where
  | noInputFiles
  | lengthMismatch
  | columnMismatch (fname : Str)
deriving DecidableEq

/-- Split the single cell of a one-column row on the literal comma, as
    `temp[temp.columns[0]].str.split(",", expand=True)` does per row: a NaN
    cell stays a single NaN field. -/
def splitCells (r : RawRow) : RawRow :=
  match (r.get? 0).getD none with
  | some s => (splitOnChar ',' s).map some
  | none => [none]

/-- Pad a row with NaN cells to the given width, as `expand=True` does. -/
def padTo (w : Nat) (r : RawRow) : RawRow :=
  r ++ List.replicate (w - r.length) none

/-- Width of the frame produced by the single-column split: the maximum
    per-row field count. -/
def repairWidth (f : CSVFile) : Nat :=
  (f.rows.map (fun r => (splitCells r).length)).foldr max 0

/-- Lines 31–33 of `build_db.py`: if the file has a single column, split that
    column on the literal comma and re-apply the canonical header.  Assigning
    the 7 canonical names (`temp.columns = EXPECTED_COLUMNS`) raises a pandas
    length-mismatch `ValueError` when the split width is not 7. -/
def repairStep (f : CSVFile) : Except IngestError CSVFile :=
  if f.header.length = 1 then
    if repairWidth f = EXPECTED_COLUMNS.length then
      .ok ⟨f.name, EXPECTED_COLUMNS,
           f.rows.map (fun r => padTo EXPECTED_COLUMNS.length (splitCells r))⟩
    else .error .lengthMismatch
  else .ok f

/-- Lines 28–38 of `build_db.py` for one file: repair the shape if the file
    has a single column, then require the columns to equal the canonical
    header, raising "Column mismatch in <file>" otherwise. -/
def processFile (f : CSVFile) : Except IngestError (List RawRow) :=
  match repairStep f with
  | .error e => .error e
  | .ok f' =>
      if f'.header = EXPECTED_COLUMNS then .ok f'.rows
      else .error (.columnMismatch f'.name)

/-- The per-file loop of `build_db.main`: process every file in order,
    propagating the first fatal error. -/
def processFiles : List CSVFile → Except IngestError (List (List RawRow))
  | [] => .ok []
  | f :: fs =>
      match processFile f with
      | .error e => .error e
      | .ok rows =>
          match processFiles fs with
          | .error e => .error e
          | .ok rest => .ok (rows :: rest)

/-- A cleaned transaction row (the working set after lines 44–48 of
    `build_db.py`), still carrying the two name columns. -/
structure Txn where
  transaction_id : Cell
  date : Option Date
  account_name : Str
  category_name : Str
  type : Str
  amount : Option ℚ
  description : Str
deriving DecidableEq

/-- Cell of a raw row at a column position (`none` when absent). -/
def cellAt (r : RawRow) (i : Nat) : Cell := (r.get? i).getD none

/-- Field cleaning, lines 44–48 of `build_db.py`: parse `date` and `amount`
    with coercion to null, and coerce-and-trim the four text columns.  The
    column positions follow `EXPECTED_COLUMNS`. -/
def cleanRow (r : RawRow) : Txn :=
  { transaction_id := cellAt r 0
    date := parseDate (cellAt r 1)
    account_name := cleanStr (cellAt r 2)
    category_name := cleanStr (cellAt r 3)
    type := cleanStr (cellAt r 4)
    amount := parseAmount (cellAt r 5)
    description := cleanStr (cellAt r 6) }

/-- Distinct values in order of first occurrence — the semantics of
    `DataFrame.drop_duplicates()` on a single column (the first occurrence of
    each value is kept). -/
def firstOccurrences : List Str → List Str
  | [] => []
  | n :: ns => n :: (firstOccurrences ns).filter (fun x => x ≠ n)

/-- A row of the Accounts dimension table. -/
structure Account where
  account_name : Str
  account_id : Nat
deriving DecidableEq

/-- A row of the Categories dimension table. -/
structure Category where
  category_name : Str
  category_id : Nat
deriving DecidableEq

/-- Tag a list of distinct names with ascending ids starting at `k + 1`
    (`accounts.index + 1` after `reset_index`). -/
def tagAccountsFrom (k : Nat) : List Str → List Account
  | [] => []
  | n :: ns => ⟨n, k + 1⟩ :: tagAccountsFrom (k + 1) ns

/-- Same id tagging for the Categories table. -/
def tagCategoriesFrom (k : Nat) : List Str → List Category
  | [] => []
  | n :: ns => ⟨n, k + 1⟩ :: tagCategoriesFrom (k + 1) ns

/-- A row of the persisted Transactions table (line 60–70 projection). -/
structure TxnRow where
  transaction_id : Cell
  date : Option Date
  type : Str
  amount : Option ℚ
  description : Str
  account_id : Nat
  category_id : Nat
deriving DecidableEq

/-- The three-table snapshot written by `build_db.main`. -/
structure DB where
  accounts : List Account
  categories : List Category
  transactions : List TxnRow
deriving DecidableEq

/-- The Accounts table of lines 51–52: distinct cleaned `account_name` values
    in first-occurrence order with ids 1.. -/
def accountsTable (cleaned : List Txn) : List Account :=
  tagAccountsFrom 0 (firstOccurrences (cleaned.map Txn.account_name))

/-- The Categories table of lines 54–55. -/
def categoriesTable (cleaned : List Txn) : List Category :=
  tagCategoriesFrom 0 (firstOccurrences (cleaned.map Txn.category_name))

/-- Line 57, `df.merge(accounts, on="account_name")`: an inner equi-join — for
    each left row, one output row per dimension row with an equal name. -/
def mergeAccounts (cleaned : List Txn) (accs : List Account) : List (Txn × Nat) :=
  cleaned.flatMap (fun c =>
    (accs.filter (fun a => a.account_name = c.account_name)).map
      (fun a => (c, a.account_id)))

/-- Line 58, `df.merge(categories, on="category_name")` applied to the result
    of the first join, followed by the projection of lines 60–70 down to the
    Transactions shape. -/
def mergeCategories (withAcc : List (Txn × Nat)) (cats : List Category) :
    List TxnRow :=
  withAcc.flatMap (fun p =>
    (cats.filter (fun cat => cat.category_name = p.1.category_name)).map
      (fun cat =>
        ⟨p.1.transaction_id, p.1.date, p.1.type, p.1.amount, p.1.description,
         p.2, cat.category_id⟩))

/-- Lines 41–70 of `build_db.main` as a pure function of the concatenated raw
    rows: clean the fields, extract the two dimension tables, join the
    surrogate keys back on and project to the Transactions shape. -/
def buildDB (raw : List RawRow) : DB :=
  let cleaned := raw.map cleanRow
  let accs := accountsTable cleaned
  let cats := categoriesTable cleaned
  ⟨accs, cats, mergeCategories (mergeAccounts cleaned accs) cats⟩

/-- `build_db.main`: fail on an empty input set, process every file (first
    structural error aborts the run), then build and write the three-table
    snapshot.  The `.ok` value models the database written by lines 72–76,
    which run only after every file has been validated; an `.error` result
    models a run that raised before `sqlite3.connect`, so nothing was
    written. -/
def main (files : List CSVFile) : Except IngestError DB :=
  if files.isEmpty then .error .noInputFiles
  else
    match processFiles files with
    | .error e => .error e
    | .ok tables => .ok (buildDB tables.flatten)

/-- A row of the load query of `app.load_data` (its 7 selected columns, in
    query order). -/
structure LRow where
  transaction_id : Cell
  date : Option Date
  description : Str
  amount : Option ℚ
  type : Str
  account_name : Str
  category_name : Str
deriving DecidableEq

/-- A dataframe row of `app.py` after the derived `year_month` column has
    been added. -/
structure Row where
  transaction_id : Cell
  date : Option Date
  description : Str
  amount : Option ℚ
  type : Str
  account_name : Str
  category_name : Str
  year_month : Str
deriving DecidableEq

/-- Decimal digits of a natural number (fuel-structured so the kernel can
    evaluate it). -/
def natDigitsAux : Nat → Nat → Str
  | 0, _ => []
  | fuel + 1, n =>
      if n = 0 then []
      else natDigitsAux fuel (n / 10) ++ [Char.ofNat (48 + n % 10)]

/-- Decimal rendering of a natural number. -/
def natToStr (n : Nat) : Str :=
  if n = 0 then chars "0" else natDigitsAux n n

/-- Two-digit zero-padded rendering (month part of a pandas `Period` string). -/
def pad2 (n : Nat) : Str :=
  if n < 10 then '0' :: natToStr n else natToStr n

/-- Line 46 of `app.py`:
    `df["date"].dt.to_period("M").astype(str)` — the `"YYYY-MM"` bucket of a
    parsed date, and the literal string `"NaT"` for a null date. -/
def yearMonth : Option Date → Str
  | none => chars "NaT"
  | some d => natToStr d.year ++ ['-'] ++ pad2 d.month

/-- Lexicographic order on character lists by code point (Python string
    comparison), as a Boolean. -/
def strLe : Str → Str → Bool
  | [], _ => true
  | _ :: _, [] => false
  | a :: as, b :: bs =>
      if a = b then strLe as bs else Nat.blt a.toNat b.toNat

/-- Insert into a string list sorted by `strLe`. -/
def insertStr (x : Str) : List Str → List Str
  | [] => [x]
  | y :: ys => if strLe x y then x :: y :: ys else y :: insertStr x ys

/-- Python `sorted` on a list of strings (insertion sort). -/
def sortStrings : List Str → List Str
  | [] => []
  | x :: xs => insertStr x (sortStrings xs)

/-- Sort key of `ORDER BY t.date` in SQLite: ascending order with NULL dates
    first.  The day encoding is injective for calendar dates (month ≤ 12,
    day ≤ 31). -/
def dateKey : Option Date → Nat
  | none => 0
  | some d => (d.year * 16 + d.month) * 32 + d.day + 1

/-- Insert into a row list sorted by date key. -/
def insertByDate (x : LRow) : List LRow → List LRow
  | [] => [x]
  | y :: ys =>
      if Nat.ble (dateKey x.date) (dateKey y.date) then x :: y :: ys
      else y :: insertByDate x ys

/-- `ORDER BY t.date` (insertion sort on the date key, NULLs first). -/
def sortByDate : List LRow → List LRow
  | [] => []
  | x :: xs => insertByDate x (sortByDate xs)

/-- `app.load_data`: the inner join
    `Transactions ⋈ Accounts ⋈ Categories` on the two surrogate keys, with the
    7 query columns in query order, sorted by date (NULLs first, as SQLite
    orders them). -/
def loadData (db : DB) : List LRow :=
  sortByDate
    (db.transactions.flatMap (fun t =>
      (db.accounts.filter (fun a => a.account_id = t.account_id)).flatMap
        (fun a =>
          (db.categories.filter
              (fun c => c.category_id = t.category_id)).map
            (fun c =>
              ⟨t.transaction_id, t.date, t.description, t.amount, t.type,
               a.account_name, c.category_name⟩))))

/-- Line 41 of `app.py`: `df["type"] = df["type"].str.lower()`. -/
def lowerTypes (rows : List LRow) : List LRow :=
  rows.map (fun r => { r with type := strToLower r.type })

/-- Line 46 of `app.py`: attach the derived `year_month` column. -/
def addYearMonth (rows : List LRow) : List Row :=
  rows.map (fun r =>
    ⟨r.transaction_id, r.date, r.description, r.amount, r.type,
     r.account_name, r.category_name, yearMonth r.date⟩)

/-- The dataframe `df` of `app.py` as the dashboard uses it: loaded join,
    lower-cased `type`, derived `year_month`. -/
def appRows (db : DB) : List Row :=
  addYearMonth (lowerTypes (loadData db))

/-- Line 48: `sorted(df["year_month"].unique())` (pandas `unique` keeps first
    occurrences; `sorted` then orders them). -/
def availableMonths (rows : List Row) : List Str :=
  sortStrings (firstOccurrences (rows.map Row.year_month))

/-- Line 112: `sorted(filtered["category_name"].unique())`. -/
def categoryOptions (rows : List Row) : List Str :=
  sortStrings (firstOccurrences (rows.map Row.category_name))

/-- Line 122: `sorted(filtered["account_name"].unique())`. -/
def accountOptions (rows : List Row) : List Str :=
  sortStrings (firstOccurrences (rows.map Row.account_name))

/-- Lines 89–90: the month multi-select stage; an empty selection (falsy list)
    applies no restriction. -/
def monthFilter (sel : List Str) (rows : List Row) : List Row :=
  if sel.isEmpty then rows
  else rows.filter (fun r => r.year_month ∈ sel)

/-- Lines 106–109: the inclusive date-range stage.  A null date fails both
    pandas comparisons, so the row is dropped. -/
def dateFilter (startD endD : Date) (rows : List Row) : List Row :=
  rows.filter (fun r =>
    match r.date with
    | some d => dateLe startD d && dateLe d endD
    | none => false)

/-- Lines 118–119: the category multi-select stage. -/
def categoryFilter (sel : List Str) (rows : List Row) : List Row :=
  if sel.isEmpty then rows
  else rows.filter (fun r => r.category_name ∈ sel)

/-- Lines 128–129: the account multi-select stage. -/
def accountFilter (sel : List Str) (rows : List Row) : List Row :=
  if sel.isEmpty then rows
  else rows.filter (fun r => r.account_name ∈ sel)

/-- The full filter pipeline of `app.py` for resolved selection values: month
    stage, date-range stage, category stage, account stage, in that order. -/
def pipelineFiltered (db : DB) (selMonths : List Str) (startD endD : Date)
    (selCats selAccts : List Str) : List Row :=
  accountFilter selAccts
    (categoryFilter selCats
      (dateFilter startD endD
        (monthFilter selMonths (appRows db))))

/-- `Series.sum()` over the `amount` column: null amounts are skipped (a NaN
    contributes nothing to a pandas sum). -/
def sumAmounts (rows : List Row) : ℚ :=
  rows.foldl (fun acc r => acc + r.amount.getD 0) 0

/-- Line 133: total income over a filtered set. -/
def totalIncome (rows : List Row) : ℚ :=
  sumAmounts (rows.filter (fun r => r.type = chars "income"))

/-- Line 134: total expenses over a filtered set. -/
def totalExpenses (rows : List Row) : ℚ :=
  sumAmounts (rows.filter (fun r => r.type = chars "expense"))

/-- Line 135: `net = income - expenses`. -/
def netMetric (rows : List Row) : ℚ :=
  totalIncome rows - totalExpenses rows

/-- One cell of the exported CSV, kept semantic (the text of a rendered
    number or date is irrelevant to the claims): a text cell (NaN empty), a
    numeric cell, or a date cell. -/
inductive CsvCell where
  | text (s : Cell)
  | num (q : Option ℚ)
  | dateCell (d : Option Date)
deriving DecidableEq

/-- The 7 column labels of the load query, in query order. -/
def loadColumns : List Str :=
  [chars "transaction_id", chars "date", chars "description", chars "amount",
   chars "type", chars "account_name", chars "category_name"]

/-- The header line written by `filtered.to_csv(index=False)`: the dataframe's
    columns, i.e. the 7 load-query columns followed by the derived
    `year_month` column which `filtered` still carries. -/
def exportHeader : List Str := loadColumns ++ [chars "year_month"]

/-- One data line of the exported CSV: the cells of a filtered row in
    dataframe column order. -/
def toCsvRow (r : Row) : List CsvCell :=
  [.text r.transaction_id, .dateCell r.date, .text (some r.description),
   .num r.amount, .text (some r.type), .text (some r.account_name),
   .text (some r.category_name), .text (some r.year_month)]

/-- Lines 220–226: `filtered.to_csv(index=False)` — a header line and one
    line per filtered row, offered for download. -/
def exportCsv (filtered : List Row) : List Str × List (List CsvCell) :=
  (exportHeader, filtered.map toCsvRow)

/-! ### Concrete sample inputs (used by witnesses and counterexamples) -/

/-- A well-formed canonical file with two rows; the second row has an
    unparsable date and a missing amount, the first an unparsable amount. -/
def sampleFile : CSVFile :=
  ⟨chars "Jan.csv", EXPECTED_COLUMNS,
   [[some (chars "1"), some (chars "2024-01-05"), some (chars "Checking"),
     some (chars "Groceries"), some (chars "expense"), some (chars "x"),
     some (chars "milk")],
    [some (chars "2"), some (chars "bad-date"), some (chars "Checking"),
     some (chars "Salary"), some (chars "Income"), none,
     some (chars "pay")]]⟩

/-- The snapshot `main` builds from `sampleFile`. -/
def sampleDB : DB :=
  ⟨[⟨chars "Checking", 1⟩],
   [⟨chars "Groceries", 1⟩, ⟨chars "Salary", 2⟩],
   [⟨some (chars "1"), some ⟨2024, 1, 5⟩, chars "expense", none, chars "milk",
     1, 1⟩,
    ⟨some (chars "2"), none, chars "Income", none, chars "pay", 1, 2⟩]⟩

/-- The spec's malformed single-column example row, as a one-column file. -/
def singleColFile : CSVFile :=
  ⟨chars "Mar.csv", [chars "transaction - id - date - etc"],
   [[some (chars "3,2024-01-15,Checking,Dining,expense,22.50,lunch")]]⟩

/-- A one-column file whose row splits into only 6 fields. -/
def badSixFile : CSVFile :=
  ⟨chars "Bad.csv", [chars "collapsed"],
   [[some (chars "3,2024-01-15,Checking,Dining,expense,lunch")]]⟩

/-- A two-column file that cannot match the canonical header. -/
def badColsFile : CSVFile :=
  ⟨chars "Bad2.csv", [chars "a", chars "b"],
   [[some (chars "1"), some (chars "2")]]⟩

/-- A raw row whose account and category cells are missing (empty CSV cells
    are NaN to pandas). -/
def nanRow : RawRow :=
  [some (chars "9"), some (chars "2024-02-01"), none, none,
   some (chars "expense"), none, some (chars "groceries run")]

/-- A file containing only `nanRow`. -/
def nanFile : CSVFile := ⟨chars "Nan.csv", EXPECTED_COLUMNS, [nanRow]⟩

/-- The snapshot `main` builds from `nanFile`: both dimension tables get a
    row literally named "nan". -/
def nanDB : DB :=
  ⟨[⟨chars "nan", 1⟩], [⟨chars "nan", 1⟩],
   [⟨some (chars "9"), some ⟨2024, 2, 1⟩, chars "expense", none,
     chars "groceries run", 1, 1⟩]⟩

/-- The first Transactions row of `sampleDB`. -/
def sampleTxn : TxnRow :=
  ⟨some (chars "1"), some ⟨2024, 1, 5⟩, chars "expense", none, chars "milk",
   1, 1⟩

/-- The dashboard row that `appRows sampleDB` yields for the dated sample
    transaction. -/
def c9SampleRow : Row :=
  ⟨some (chars "1"), some ⟨2024, 1, 5⟩, chars "milk", none, chars "expense",
   chars "Checking", chars "Groceries", chars "2024-01"⟩

/-- A dashboard row with a one-row filtered set, for export statements. -/
def c6SampleRow : Row :=
  ⟨some (chars "7"), some ⟨2024, 3, 2⟩, chars "coffee", none, chars "expense",
   chars "Checking", chars "Dining", chars "2024-03"⟩

/-! ### Helper lemmas -/

/-- A `flatMap` whose inner lists are singletons preserves length. -/
lemma length_flatMap_singleton {α β : Type} (l : List α) (g : α → List β)
    (h : ∀ a ∈ l, (g a).length = 1) : (l.flatMap g).length = l.length := by
  induction l with
  | nil => rfl
  | cons x xs ih =>
      simp only [List.flatMap_cons, List.length_append]
      rw [h x (List.mem_cons_self x xs), ih (fun a ha => h a (List.mem_cons_of_mem x ha))]
      simp [Nat.add_comm]

lemma mem_insertStr (a x : Str) (l : List Str) :
    a ∈ insertStr x l ↔ a = x ∨ a ∈ l := by
  induction l with
  | nil => simp [insertStr]
  | cons y ys ih =>
      simp only [insertStr]
      split
      · simp [List.mem_cons]
      · simp only [List.mem_cons, ih]
        tauto

lemma mem_sortStrings (a : Str) (l : List Str) :
    a ∈ sortStrings l ↔ a ∈ l := by
  induction l with
  | nil => simp [sortStrings]
  | cons x xs ih => simp [sortStrings, mem_insertStr, ih]

lemma mem_firstOccurrences (x : Str) (l : List Str) :
    x ∈ firstOccurrences l ↔ x ∈ l := by
  induction l with
  | nil => simp [firstOccurrences]
  | cons n ns ih =>
      simp only [firstOccurrences, List.mem_cons, List.mem_filter, ih]
      by_cases hx : x = n
      · simp [hx]
      · simp [hx]

lemma nodup_firstOccurrences (l : List Str) : (firstOccurrences l).Nodup := by
  induction l with
  | nil => exact List.nodup_nil
  | cons n ns ih =>
      refine List.Nodup.cons ?_ (ih.filter _)
      intro hmem
      have := (List.mem_filter.mp hmem).2
      simp at this

/-- Index of the first occurrence of a value in a list. -/
def firstIdx (x : Str) (l : List Str) : Nat :=
  (l.takeWhile (fun y => y ≠ x)).length

lemma firstIdx_cons_self (x : Str) (l : List Str) : firstIdx x (x :: l) = 0 := by
  simp [firstIdx, List.takeWhile]

lemma firstIdx_cons_ne (x y : Str) (l : List Str) (h : x ≠ y) :
    firstIdx x (y :: l) = firstIdx x l + 1 := by
  simp only [firstIdx, List.takeWhile]
  have : (fun z => decide (z ≠ x)) y = true := by simpa using Ne.symm h
  simp [this]

/-- `firstOccurrences` lists values in strictly increasing order of their
    first occurrence. -/
lemma pairwise_firstIdx (l : List Str) :
    (firstOccurrences l).Pairwise (fun x y => firstIdx x l < firstIdx y l) := by
  induction l with
  | nil => simp [firstOccurrences]
  | cons n ns ih =>
      simp only [firstOccurrences]
      refine List.Pairwise.cons ?_ ?_
      · intro y hy
        have hne : y ≠ n := by
          have := (List.mem_filter.mp hy).2
          simpa using this
        rw [firstIdx_cons_self, firstIdx_cons_ne y n ns hne]
        exact Nat.succ_pos _
      · have hsub : ((firstOccurrences ns).filter (fun x => x ≠ n)).Pairwise
            (fun x y => firstIdx x ns < firstIdx y ns) :=
          List.Pairwise.sublist (List.filter_sublist _) ih
        refine hsub.imp_of_mem ?_
        intro a b ha hb hab
        have hna : a ≠ n := by simpa using (List.mem_filter.mp ha).2
        have hnb : b ≠ n := by simpa using (List.mem_filter.mp hb).2
        rw [firstIdx_cons_ne a n ns hna, firstIdx_cons_ne b n ns hnb]
        exact Nat.succ_lt_succ hab

/-! ### Dimension-table lemmas -/

lemma map_name_tagAccountsFrom (k : Nat) (ns : List Str) :
    (tagAccountsFrom k ns).map Account.account_name = ns := by
  induction ns generalizing k with
  | nil => rfl
  | cons n ns ih => simp [tagAccountsFrom, ih]

lemma map_id_tagAccountsFrom (k : Nat) (ns : List Str) :
    (tagAccountsFrom k ns).map Account.account_id =
      List.range' (k + 1) ns.length := by
  induction ns generalizing k with
  | nil => rfl
  | cons n ns ih => simp [tagAccountsFrom, List.range'_succ, ih]

lemma length_tagAccountsFrom (k : Nat) (ns : List Str) :
    (tagAccountsFrom k ns).length = ns.length := by
  induction ns generalizing k with
  | nil => rfl
  | cons n ns ih => simp [tagAccountsFrom, ih]

lemma mem_id_bound_tagAccountsFrom (k : Nat) (ns : List Str) (a : Account)
    (h : a ∈ tagAccountsFrom k ns) : k + 1 ≤ a.account_id := by
  induction ns generalizing k with
  | nil => simp [tagAccountsFrom] at h
  | cons n ns ih =>
      simp only [tagAccountsFrom, List.mem_cons] at h
      rcases h with h | h
      · simp [h]
      · exact Nat.le_of_succ_le (ih (k + 1) h)

lemma id_inj_tagAccountsFrom (k : Nat) (ns : List Str) (a b : Account)
    (ha : a ∈ tagAccountsFrom k ns) (hb : b ∈ tagAccountsFrom k ns)
    (hid : a.account_id = b.account_id) : a = b := by
  induction ns generalizing k with
  | nil => simp [tagAccountsFrom] at ha
  | cons n ns ih =>
      simp only [tagAccountsFrom, List.mem_cons] at ha hb
      rcases ha with ha | ha <;> rcases hb with hb | hb
      · rw [ha, hb]
      · exfalso
        have hbb := mem_id_bound_tagAccountsFrom (k + 1) ns b hb
        rw [ha] at hid
        simp at hid
        omega
      · exfalso
        have haa := mem_id_bound_tagAccountsFrom (k + 1) ns a ha
        rw [hb] at hid
        simp at hid
        omega
      · exact ih (k + 1) ha hb

lemma filter_tagAccountsFrom_nil (k : Nat) (ns : List Str) (x : Str)
    (h : x ∉ ns) :
    (tagAccountsFrom k ns).filter (fun a => a.account_name = x) = [] := by
  induction ns generalizing k with
  | nil => rfl
  | cons n ns ih =>
      have hxn : ¬(n = x) := fun he => h (he ▸ List.mem_cons_self n ns)
      simp only [tagAccountsFrom, List.filter_cons]
      rw [if_neg (by simpa using hxn)]
      exact ih (k + 1) (fun hm => h (List.mem_cons_of_mem n hm))

lemma filter_tagAccountsFrom_singleton (k : Nat) (ns : List Str) (x : Str)
    (hnd : ns.Nodup) (hx : x ∈ ns) :
    ∃ a, (tagAccountsFrom k ns).filter (fun a => a.account_name = x) = [a] ∧
      a.account_name = x ∧ a ∈ tagAccountsFrom k ns := by
  induction ns generalizing k with
  | nil => simp at hx
  | cons n ns ih =>
      rcases List.mem_cons.mp hx with hx | hx
      · refine ⟨⟨n, k + 1⟩, ?_, hx.symm, List.mem_cons_self _ _⟩
        simp only [tagAccountsFrom, List.filter_cons]
        rw [if_pos (by simpa using hx.symm)]
        rw [filter_tagAccountsFrom_nil (k + 1) ns x
          (hx ▸ (List.nodup_cons.mp hnd).1)]
      · have hne : ¬(n = x) := by
          intro he
          exact (List.nodup_cons.mp hnd).1 (he ▸ hx)
        obtain ⟨a, hfa, hname, hmem⟩ :=
          ih (k + 1) (List.nodup_cons.mp hnd).2 hx
        refine ⟨a, ?_, hname, List.mem_cons_of_mem _ hmem⟩
        simp only [tagAccountsFrom, List.filter_cons]
        rw [if_neg (by simpa using hne)]
        exact hfa

lemma map_name_tagCategoriesFrom (k : Nat) (ns : List Str) :
    (tagCategoriesFrom k ns).map Category.category_name = ns := by
  induction ns generalizing k with
  | nil => rfl
  | cons n ns ih => simp [tagCategoriesFrom, ih]

lemma map_id_tagCategoriesFrom (k : Nat) (ns : List Str) :
    (tagCategoriesFrom k ns).map Category.category_id =
      List.range' (k + 1) ns.length := by
  induction ns generalizing k with
  | nil => rfl
  | cons n ns ih => simp [tagCategoriesFrom, List.range'_succ, ih]

lemma length_tagCategoriesFrom (k : Nat) (ns : List Str) :
    (tagCategoriesFrom k ns).length = ns.length := by
  induction ns generalizing k with
  | nil => rfl
  | cons n ns ih => simp [tagCategoriesFrom, ih]

lemma mem_id_bound_tagCategoriesFrom (k : Nat) (ns : List Str) (c : Category)
    (h : c ∈ tagCategoriesFrom k ns) : k + 1 ≤ c.category_id := by
  induction ns generalizing k with
  | nil => simp [tagCategoriesFrom] at h
  | cons n ns ih =>
      simp only [tagCategoriesFrom, List.mem_cons] at h
      rcases h with h | h
      · simp [h]
      · exact Nat.le_of_succ_le (ih (k + 1) h)

lemma id_inj_tagCategoriesFrom (k : Nat) (ns : List Str) (a b : Category)
    (ha : a ∈ tagCategoriesFrom k ns) (hb : b ∈ tagCategoriesFrom k ns)
    (hid : a.category_id = b.category_id) : a = b := by
  induction ns generalizing k with
  | nil => simp [tagCategoriesFrom] at ha
  | cons n ns ih =>
      simp only [tagCategoriesFrom, List.mem_cons] at ha hb
      rcases ha with ha | ha <;> rcases hb with hb | hb
      · rw [ha, hb]
      · exfalso
        have hbb := mem_id_bound_tagCategoriesFrom (k + 1) ns b hb
        rw [ha] at hid
        simp at hid
        omega
      · exfalso
        have haa := mem_id_bound_tagCategoriesFrom (k + 1) ns a ha
        rw [hb] at hid
        simp at hid
        omega
      · exact ih (k + 1) ha hb

lemma filter_tagCategoriesFrom_nil (k : Nat) (ns : List Str) (x : Str)
    (h : x ∉ ns) :
    (tagCategoriesFrom k ns).filter (fun c => c.category_name = x) = [] := by
  induction ns generalizing k with
  | nil => rfl
  | cons n ns ih =>
      have hxn : ¬(n = x) := fun he => h (he ▸ List.mem_cons_self n ns)
      simp only [tagCategoriesFrom, List.filter_cons]
      rw [if_neg (by simpa using hxn)]
      exact ih (k + 1) (fun hm => h (List.mem_cons_of_mem n hm))

lemma filter_tagCategoriesFrom_singleton (k : Nat) (ns : List Str) (x : Str)
    (hnd : ns.Nodup) (hx : x ∈ ns) :
    ∃ c, (tagCategoriesFrom k ns).filter (fun c => c.category_name = x) = [c] ∧
      c.category_name = x ∧ c ∈ tagCategoriesFrom k ns := by
  induction ns generalizing k with
  | nil => simp at hx
  | cons n ns ih =>
      rcases List.mem_cons.mp hx with hx | hx
      · refine ⟨⟨n, k + 1⟩, ?_, hx.symm, List.mem_cons_self _ _⟩
        simp only [tagCategoriesFrom, List.filter_cons]
        rw [if_pos (by simpa using hx.symm)]
        rw [filter_tagCategoriesFrom_nil (k + 1) ns x
          (hx ▸ (List.nodup_cons.mp hnd).1)]
      · have hne : ¬(n = x) := by
          intro he
          exact (List.nodup_cons.mp hnd).1 (he ▸ hx)
        obtain ⟨c, hfc, hname, hmem⟩ :=
          ih (k + 1) (List.nodup_cons.mp hnd).2 hx
        refine ⟨c, ?_, hname, List.mem_cons_of_mem _ hmem⟩
        simp only [tagCategoriesFrom, List.filter_cons]
        rw [if_neg (by simpa using hne)]
        exact hfc

/-! ### Join lemmas -/

/-- Every cleaned row's account name has exactly one match in the Accounts
    table, so the first name-join keeps exactly one output row per input
    row. -/
lemma acc_filter_singleton (cleaned : List Txn) (c : Txn) (hc : c ∈ cleaned) :
    ∃ a, (accountsTable cleaned).filter
        (fun a => a.account_name = c.account_name) = [a] ∧
      a.account_name = c.account_name ∧ a ∈ accountsTable cleaned := by
  apply filter_tagAccountsFrom_singleton 0 _ _ (nodup_firstOccurrences _)
  exact (mem_firstOccurrences _ _).mpr (List.mem_map_of_mem Txn.account_name hc)

lemma cat_filter_singleton (cleaned : List Txn) (c : Txn) (hc : c ∈ cleaned) :
    ∃ cat, (categoriesTable cleaned).filter
        (fun cat => cat.category_name = c.category_name) = [cat] ∧
      cat.category_name = c.category_name ∧ cat ∈ categoriesTable cleaned := by
  apply filter_tagCategoriesFrom_singleton 0 _ _ (nodup_firstOccurrences _)
  exact (mem_firstOccurrences _ _).mpr (List.mem_map_of_mem Txn.category_name hc)

lemma length_mergeAccounts (cleaned : List Txn) :
    (mergeAccounts cleaned (accountsTable cleaned)).length = cleaned.length := by
  apply length_flatMap_singleton
  intro c hc
  obtain ⟨a, hfa, -, -⟩ := acc_filter_singleton cleaned c hc
  simp [hfa]

lemma mem_mergeAccounts_elim (cleaned : List Txn) (accs : List Account)
    (p : Txn × Nat) (hp : p ∈ mergeAccounts cleaned accs) :
    ∃ c ∈ cleaned, ∃ a ∈ accs, a.account_name = c.account_name ∧
      p = (c, a.account_id) := by
  simp only [mergeAccounts, List.mem_flatMap, List.mem_map,
    List.mem_filter] at hp
  obtain ⟨c, hc, a, ⟨ha, hname⟩, hpa⟩ := hp
  exact ⟨c, hc, a, ha, by simpa using hname, hpa.symm⟩

lemma mem_mergeAccounts_intro (cleaned : List Txn) (accs : List Account)
    (c : Txn) (a : Account) (hc : c ∈ cleaned) (ha : a ∈ accs)
    (hname : a.account_name = c.account_name) :
    (c, a.account_id) ∈ mergeAccounts cleaned accs := by
  simp only [mergeAccounts, List.mem_flatMap, List.mem_map, List.mem_filter]
  exact ⟨c, hc, a, ⟨ha, by simpa using hname⟩, rfl⟩

lemma length_mergeCategories (cleaned : List Txn) (withAcc : List (Txn × Nat))
    (hsrc : ∀ p ∈ withAcc, p.1 ∈ cleaned) :
    (mergeCategories withAcc (categoriesTable cleaned)).length =
      withAcc.length := by
  apply length_flatMap_singleton
  intro p hp
  obtain ⟨cat, hfc, -, -⟩ := cat_filter_singleton cleaned p.1 (hsrc p hp)
  simp [hfc]

lemma mem_mergeCategories_elim (withAcc : List (Txn × Nat))
    (cats : List Category) (t : TxnRow)
    (ht : t ∈ mergeCategories withAcc cats) :
    ∃ p ∈ withAcc, ∃ cat ∈ cats, cat.category_name = p.1.category_name ∧
      t = ⟨p.1.transaction_id, p.1.date, p.1.type, p.1.amount,
           p.1.description, p.2, cat.category_id⟩ := by
  simp only [mergeCategories, List.mem_flatMap, List.mem_map,
    List.mem_filter] at ht
  obtain ⟨p, hp, cat, ⟨hcat, hname⟩, hpt⟩ := ht
  exact ⟨p, hp, cat, hcat, by simpa using hname, hpt.symm⟩

lemma mem_mergeCategories_intro (withAcc : List (Txn × Nat))
    (cats : List Category) (p : Txn × Nat) (cat : Category)
    (hp : p ∈ withAcc) (hcat : cat ∈ cats)
    (hname : cat.category_name = p.1.category_name) :
    (⟨p.1.transaction_id, p.1.date, p.1.type, p.1.amount, p.1.description,
      p.2, cat.category_id⟩ : TxnRow) ∈ mergeCategories withAcc cats := by
  simp only [mergeCategories, List.mem_flatMap, List.mem_map, List.mem_filter]
  exact ⟨p, hp, cat, ⟨hcat, by simpa using hname⟩, rfl⟩

/-! ### Ingestion-run lemmas -/

lemma processFile_ok_length (f : CSVFile) (rows : List RawRow)
    (h : processFile f = .ok rows) : rows.length = f.rows.length := by
  unfold processFile repairStep at h
  by_cases h1 : f.header.length = 1
  · rw [if_pos h1] at h
    by_cases h2 : repairWidth f = EXPECTED_COLUMNS.length
    · rw [if_pos h2] at h
      simp only at h
      split at h
      · simp only [Except.ok.injEq] at h
        rw [← h]
        simp
      · exact absurd h (by simp)
    · rw [if_neg h2] at h
      exact absurd h (by simp)
  · rw [if_neg h1] at h
    simp only at h
    split at h
    · simp only [Except.ok.injEq] at h
      rw [← h]
    · exact absurd h (by simp)

lemma processFiles_ok (files : List CSVFile) (tables : List (List RawRow))
    (h : processFiles files = .ok tables) :
    List.Forall₂ (fun f t => processFile f = .ok t) files tables := by
  induction files generalizing tables with
  | nil =>
      simp only [processFiles, Except.ok.injEq] at h
      rw [← h]
      exact List.Forall₂.nil
  | cons f fs ih =>
      simp only [processFiles] at h
      split at h
      · exact absurd h (by simp)
      · split at h
        · exact absurd h (by simp)
        · simp only [Except.ok.injEq] at h
          rw [← h]
          exact List.Forall₂.cons (by assumption) (ih _ (by assumption))

lemma processFiles_error (files : List CSVFile) (f : CSVFile)
    (hf : f ∈ files) (hbad : (processFile f).isOk = false) :
    ∃ e, processFiles files = .error e := by
  induction files with
  | nil => simp at hf
  | cons g gs ih =>
      simp only [processFiles]
      rcases List.mem_cons.mp hf with hfg | hfg
      · cases hpf : processFile g with
        | error e => exact ⟨e, rfl⟩
        | ok rows =>
            rw [hfg, hpf] at hbad
            simp [Except.isOk, Except.toBool] at hbad
      · cases hpf : processFile g with
        | error e => exact ⟨e, rfl⟩
        | ok rows =>
            obtain ⟨e, he⟩ := ih hfg
            rw [he]
            exact ⟨e, rfl⟩

lemma main_ok (files : List CSVFile) (db : DB) (h : main files = .ok db) :
    ∃ tables, processFiles files = .ok tables ∧ db = buildDB tables.flatten := by
  unfold main at h
  split at h
  · exact absurd h (by simp)
  · split at h
    · exact absurd h (by simp)
    · simp only [Except.ok.injEq] at h
      exact ⟨_, by assumption, h.symm⟩

/-- The joins of `buildDB` neither drop nor duplicate transaction rows. -/
lemma buildDB_length (raw : List RawRow) :
    (buildDB raw).transactions.length = raw.length := by
  unfold buildDB
  simp only
  rw [length_mergeCategories (raw.map cleanRow) _ ?hsrc]
  · rw [length_mergeAccounts, List.length_map]
  case hsrc =>
    intro p hp
    obtain ⟨c, hc, a, -, -, hpe⟩ :=
      mem_mergeAccounts_elim _ _ p hp
    rw [hpe]
    exact hc

/-! ### Claims -/

/-- C1: for every valid set of input CSV files (each accepted after shape
    repair), the persisted Transactions table has exactly as many rows as the
    inputs have in total — ingestion drops no rows (unparsable date/amount
    cells only become null), and the two name-joins neither drop nor
    duplicate any transaction row. -/
theorem ingestion_preserves_row_count (files : List CSVFile) (db : DB)
    (h : main files = .ok db) :
    db.transactions.length = (files.map (fun f => f.rows.length)).sum := by
  obtain ⟨tables, hpf, hdb⟩ := main_ok files db h
  rw [hdb, buildDB_length, List.length_flatten]
  have hfa := processFiles_ok files tables hpf
  clear h hdb hpf
  induction hfa with
  | nil => rfl
  | cons h1 _ ih =>
      simp only [List.map_cons, List.sum_cons, ih]
      rw [processFile_ok_length _ _ h1]

theorem ingestion_preserves_row_count_witness :
    main [sampleFile] = .ok sampleDB ∧
    sampleDB.transactions.length =
      ([sampleFile].map (fun f => f.rows.length)).sum :=
  ⟨by decide, by
    have h := ingestion_preserves_row_count [sampleFile] sampleDB (by decide)
    simpa using h⟩

/-- C2: ingestion is all-or-nothing for structural errors — an empty input
    set, or any file that `processFile` rejects (column mismatch after shape
    repair), makes the whole run end in an error, so no snapshot (none of the
    three tables) is produced even if other files in the batch are
    well-formed.  In the embedding the three tables exist only inside the
    `.ok` result, mirroring that `build_db.py` opens the database after all
    validation. -/
theorem structural_error_aborts (files : List CSVFile)
    (h : files = [] ∨ ∃ f ∈ files, (processFile f).isOk = false) :
    ∃ e, main files = .error e := by
  rcases h with h | ⟨f, hf, hbad⟩
  · exact ⟨.noInputFiles, by rw [h]; rfl⟩
  · by_cases he : files.isEmpty
    · exact ⟨.noInputFiles, by simp [main, he]⟩
    · obtain ⟨e, hpe⟩ := processFiles_error files f hf hbad
      exact ⟨e, by simp [main, he, hpe]⟩

theorem structural_error_aborts_witness :
    (([sampleFile, badColsFile] : List CSVFile) = [] ∨
      ∃ f ∈ [sampleFile, badColsFile], (processFile f).isOk = false) ∧
    ∃ e, main [sampleFile, badColsFile] = .error e :=
  ⟨Or.inr ⟨badColsFile, by decide, by decide⟩,
   structural_error_aborts [sampleFile, badColsFile]
     (Or.inr ⟨badColsFile, by decide, by decide⟩)⟩

/-- C3: for every valid input set, the Accounts and Categories tables hold
    exactly the distinct post-trim account / category names of the input, each
    exactly once, with surrogate ids forming the contiguous range 1..N and
    assigned in first-occurrence order. -/
theorem dimension_tables_exact (files : List CSVFile)
    (tables : List (List RawRow)) (db : DB)
    (h2 : processFiles files = .ok tables) (h1 : main files = .ok db) :
    ((db.accounts.map Account.account_name).Nodup
      ∧ (∀ n, n ∈ db.accounts.map Account.account_name ↔
          n ∈ (tables.flatten.map cleanRow).map Txn.account_name)
      ∧ db.accounts.map Account.account_id = List.range' 1 db.accounts.length
      ∧ (db.accounts.map Account.account_name).Pairwise (fun x y =>
          firstIdx x ((tables.flatten.map cleanRow).map Txn.account_name) <
          firstIdx y ((tables.flatten.map cleanRow).map Txn.account_name)))
    ∧ ((db.categories.map Category.category_name).Nodup
      ∧ (∀ n, n ∈ db.categories.map Category.category_name ↔
          n ∈ (tables.flatten.map cleanRow).map Txn.category_name)
      ∧ db.categories.map Category.category_id =
          List.range' 1 db.categories.length
      ∧ (db.categories.map Category.category_name).Pairwise (fun x y =>
          firstIdx x ((tables.flatten.map cleanRow).map Txn.category_name) <
          firstIdx y ((tables.flatten.map cleanRow).map Txn.category_name))) := by
  obtain ⟨tables', hpf, hdb⟩ := main_ok files db h1
  rw [h2] at hpf
  cases hpf
  subst hdb
  simp only [buildDB]
  constructor
  · refine ⟨?_, ?_, ?_, ?_⟩
    · rw [accountsTable, map_name_tagAccountsFrom]
      exact nodup_firstOccurrences _
    · intro n
      rw [accountsTable, map_name_tagAccountsFrom, mem_firstOccurrences]
    · rw [accountsTable, map_id_tagAccountsFrom, length_tagAccountsFrom]
    · rw [accountsTable, map_name_tagAccountsFrom]
      exact pairwise_firstIdx _
  · refine ⟨?_, ?_, ?_, ?_⟩
    · rw [categoriesTable, map_name_tagCategoriesFrom]
      exact nodup_firstOccurrences _
    · intro n
      rw [categoriesTable, map_name_tagCategoriesFrom, mem_firstOccurrences]
    · rw [categoriesTable, map_id_tagCategoriesFrom, length_tagCategoriesFrom]
    · rw [categoriesTable, map_name_tagCategoriesFrom]
      exact pairwise_firstIdx _

theorem dimension_tables_exact_witness :
    processFiles [sampleFile] = .ok [sampleFile.rows] ∧
    main [sampleFile] = .ok sampleDB ∧
    (((sampleDB.accounts.map Account.account_name).Nodup
      ∧ (∀ n, n ∈ sampleDB.accounts.map Account.account_name ↔
          n ∈ ([sampleFile.rows].flatten.map cleanRow).map Txn.account_name)
      ∧ sampleDB.accounts.map Account.account_id =
          List.range' 1 sampleDB.accounts.length
      ∧ (sampleDB.accounts.map Account.account_name).Pairwise (fun x y =>
          firstIdx x (([sampleFile.rows].flatten.map cleanRow).map
            Txn.account_name) <
          firstIdx y (([sampleFile.rows].flatten.map cleanRow).map
            Txn.account_name)))
    ∧ ((sampleDB.categories.map Category.category_name).Nodup
      ∧ (∀ n, n ∈ sampleDB.categories.map Category.category_name ↔
          n ∈ ([sampleFile.rows].flatten.map cleanRow).map Txn.category_name)
      ∧ sampleDB.categories.map Category.category_id =
          List.range' 1 sampleDB.categories.length
      ∧ (sampleDB.categories.map Category.category_name).Pairwise (fun x y =>
          firstIdx x (([sampleFile.rows].flatten.map cleanRow).map
            Txn.category_name) <
          firstIdx y (([sampleFile.rows].flatten.map cleanRow).map
            Txn.category_name)))) :=
  ⟨by decide, by decide,
   dimension_tables_exact [sampleFile] [sampleFile.rows] sampleDB
     (by decide) (by decide)⟩

/-- C4: referential completeness — in every snapshot a successful run writes,
    each Transactions row's `account_id` resolves to exactly one Accounts row
    and its `category_id` to exactly one Categories row. -/
theorem referential_completeness (files : List CSVFile) (db : DB)
    (h : main files = .ok db) (t : TxnRow) (ht : t ∈ db.transactions) :
    (∃! a, a ∈ db.accounts ∧ a.account_id = t.account_id) ∧
    (∃! c, c ∈ db.categories ∧ c.category_id = t.category_id) := by
  obtain ⟨tables, hpf, hdb⟩ := main_ok files db h
  subst hdb
  simp only [buildDB] at ht ⊢
  obtain ⟨p, hp, cat, hcat, hcatname, hteq⟩ :=
    mem_mergeCategories_elim _ _ t ht
  obtain ⟨c, hc, a, ha, haname, hpeq⟩ := mem_mergeAccounts_elim _ _ p hp
  constructor
  · refine ⟨a, ⟨ha, ?_⟩, ?_⟩
    · rw [hteq, hpeq]
    · intro b hb
      exact id_inj_tagAccountsFrom 0 _ b a hb.1 ha
        (by rw [hb.2, hteq, hpeq])
  · refine ⟨cat, ⟨hcat, ?_⟩, ?_⟩
    · rw [hteq]
    · intro b hb
      exact id_inj_tagCategoriesFrom 0 _ b cat hb.1 hcat
        (by rw [hb.2, hteq])

theorem referential_completeness_witness :
    main [sampleFile] = .ok sampleDB ∧
    sampleTxn ∈ sampleDB.transactions ∧
    ((∃! a, a ∈ sampleDB.accounts ∧ a.account_id = sampleTxn.account_id) ∧
     (∃! c, c ∈ sampleDB.categories ∧ c.category_id = sampleTxn.category_id)) :=
  ⟨by decide, by decide,
   referential_completeness [sampleFile] sampleDB (by decide) sampleTxn
     (by decide)⟩

/-- C5 counterexample: a single-column file whose row splits into 6 fields is
    not accepted with the canonical header re-applied, and the fatal error it
    causes is the pandas header-length mismatch, which is not the
    "column mismatch" error and does not name the offending file. -/
theorem shape_repair_counterexample :
    processFile badSixFile = .error .lengthMismatch := by decide

/-- C5 (amended): a single-column file is split on the literal comma and
    accepted under the canonical 7-field header when the split width is
    exactly 7; a single-column file whose split width differs from 7 aborts
    with the header-length error that names no file; and a multi-column file
    whose columns differ from the canonical header aborts with the
    "column mismatch" error naming the offending file. -/
theorem shape_repair_amended (f : CSVFile) :
    (f.header.length = 1 → repairWidth f = EXPECTED_COLUMNS.length →
      processFile f = .ok (f.rows.map (fun r =>
        padTo EXPECTED_COLUMNS.length (splitCells r))))
    ∧ (f.header.length = 1 → repairWidth f ≠ EXPECTED_COLUMNS.length →
      processFile f = .error .lengthMismatch)
    ∧ (f.header.length ≠ 1 → f.header ≠ EXPECTED_COLUMNS →
      processFile f = .error (.columnMismatch f.name)) := by
  refine ⟨fun h1 h2 => ?_, fun h1 h2 => ?_, fun h1 h2 => ?_⟩ <;>
    simp [processFile, repairStep, h1, h2]

theorem shape_repair_amended_witness :
    (singleColFile.header.length = 1 ∧
     repairWidth singleColFile = EXPECTED_COLUMNS.length) ∧
    processFile singleColFile = .ok (singleColFile.rows.map (fun r =>
      padTo EXPECTED_COLUMNS.length (splitCells r))) :=
  ⟨⟨by decide, by decide⟩,
   (shape_repair_amended singleColFile).1 (by decide) (by decide)⟩

/-- C6 counterexample: the downloadable CSV's header is not the load-query
    column list — the derived `year_month` column is included as an eighth
    column, because `filtered` still carries it when `to_csv` runs. -/
theorem export_columns_counterexample :
    (exportCsv [c6SampleRow]).1 ≠ loadColumns ∧
    (exportCsv [c6SampleRow]).1 = loadColumns ++ [chars "year_month"] ∧
    (exportCsv [c6SampleRow]).2 =
      [[CsvCell.text (some (chars "7")), CsvCell.dateCell (some ⟨2024, 3, 2⟩),
        CsvCell.text (some (chars "coffee")), CsvCell.num none,
        CsvCell.text (some (chars "expense")),
        CsvCell.text (some (chars "Checking")),
        CsvCell.text (some (chars "Dining")),
        CsvCell.text (some (chars "2024-03"))]] := by
  refine ⟨by decide, by decide, by decide⟩

/-- C6 (amended): the export contains exactly the rows of the final filtered
    set, one line per transaction plus a header line, with the seven
    load-query columns in query order followed by the derived `year_month`
    column (which is exported although it is never persisted to the
    database). -/
theorem export_amended (filtered : List Row) (r : Row) :
    (exportCsv filtered).1 = loadColumns ++ [chars "year_month"] ∧
    (exportCsv filtered).2.length = filtered.length ∧
    (exportCsv filtered).2 = filtered.map toCsvRow ∧
    toCsvRow r =
      [CsvCell.text r.transaction_id, CsvCell.dateCell r.date,
       CsvCell.text (some r.description), CsvCell.num r.amount,
       CsvCell.text (some r.type), CsvCell.text (some r.account_name),
       CsvCell.text (some r.category_name)] ++
      [CsvCell.text (some r.year_month)] := by
  refine ⟨rfl, ?_, rfl, rfl⟩
  simp [exportCsv]

/-- C7: select-all semantics and idempotence for each multi-select stage —
    an empty selection leaves the stage's input unchanged, and so does a
    selection equal to the stage's full option set. -/
theorem select_all_noop (rows : List Row) :
    (monthFilter [] rows = rows ∧
     monthFilter (availableMonths rows) rows = rows)
    ∧ (categoryFilter [] rows = rows ∧
       categoryFilter (categoryOptions rows) rows = rows)
    ∧ (accountFilter [] rows = rows ∧
       accountFilter (accountOptions rows) rows = rows) := by
  refine ⟨⟨rfl, ?_⟩, ⟨rfl, ?_⟩, ⟨rfl, ?_⟩⟩
  · unfold monthFilter
    split
    · rfl
    · apply List.filter_eq_self.mpr
      intro r hr
      simp only [decide_eq_true_eq]
      exact (mem_sortStrings _ _).mpr ((mem_firstOccurrences _ _).mpr
        (List.mem_map_of_mem Row.year_month hr))
  · unfold categoryFilter
    split
    · rfl
    · apply List.filter_eq_self.mpr
      intro r hr
      simp only [decide_eq_true_eq]
      exact (mem_sortStrings _ _).mpr ((mem_firstOccurrences _ _).mpr
        (List.mem_map_of_mem Row.category_name hr))
  · unfold accountFilter
    split
    · rfl
    · apply List.filter_eq_self.mpr
      intro r hr
      simp only [decide_eq_true_eq]
      exact (mem_sortStrings _ _).mpr ((mem_firstOccurrences _ _).mpr
        (List.mem_map_of_mem Row.account_name hr))

/-- `Series.sum` as the plain sum of the (null-skipping) amount values. -/
lemma sumAmounts_eq (rows : List Row) :
    sumAmounts rows = (rows.map (fun r => r.amount.getD 0)).sum := by
  suffices h : ∀ init : ℚ,
      rows.foldl (fun acc r => acc + r.amount.getD 0) init =
        init + (rows.map (fun r => r.amount.getD 0)).sum by
    simpa using h 0
  induction rows with
  | nil => intro init; simp
  | cons x xs ih =>
      intro init
      simp only [List.foldl_cons, List.map_cons, List.sum_cons, ih]
      ring

/-- C8: over the final filtered set of any filter combination, total income
    is the sum of `amount` over rows whose (lower-cased) type is "income",
    total expenses the same for "expense" (null amounts contributing
    nothing), and the reported net metric is exactly income minus expenses. -/
theorem metrics_consistent (db : DB) (selM : List Str) (s e : Date)
    (selC selA : List Str) :
    totalIncome (pipelineFiltered db selM s e selC selA) =
      (((pipelineFiltered db selM s e selC selA).filter
          (fun r => r.type = chars "income")).map
        (fun r => r.amount.getD 0)).sum
    ∧ totalExpenses (pipelineFiltered db selM s e selC selA) =
      (((pipelineFiltered db selM s e selC selA).filter
          (fun r => r.type = chars "expense")).map
        (fun r => r.amount.getD 0)).sum
    ∧ netMetric (pipelineFiltered db selM s e selC selA) =
      totalIncome (pipelineFiltered db selM s e selC selA) -
        totalExpenses (pipelineFiltered db selM s e selC selA) :=
  ⟨sumAmounts_eq _, sumAmounts_eq _, rfl⟩

lemma mem_of_accountFilter (sel : List Str) (rows : List Row) (r : Row)
    (h : r ∈ accountFilter sel rows) : r ∈ rows := by
  unfold accountFilter at h
  split at h
  · exact h
  · exact (List.mem_filter.mp h).1

lemma mem_of_categoryFilter (sel : List Str) (rows : List Row) (r : Row)
    (h : r ∈ categoryFilter sel rows) : r ∈ rows := by
  unfold categoryFilter at h
  split at h
  · exact h
  · exact (List.mem_filter.mp h).1

lemma date_isSome_of_mem_dateFilter (s e : Date) (rows : List Row) (r : Row)
    (h : r ∈ dateFilter s e rows) : r.date.isSome = true := by
  have hp := (List.mem_filter.mp h).2
  cases hd : r.date with
  | none => rw [hd] at hp; simp at hp
  | some d => simp [hd]

/-- C9: a transaction whose date failed to parse (null date) is absent from
    the final filtered set for every possible filter selection — the
    inclusive date-range stage drops null dates for any start/end, including
    the default global min/max — so such rows never reach the metrics,
    charts, top-5 list, table or CSV export, all of which are computed from
    this filtered set, although the rows do survive in the Transactions
    table. -/
theorem null_dates_excluded (db : DB) (selM : List Str) (s e : Date)
    (selC selA : List Str) (r : Row)
    (hr : r ∈ pipelineFiltered db selM s e selC selA) :
    r.date.isSome = true := by
  unfold pipelineFiltered at hr
  have h3 := mem_of_accountFilter _ _ _ hr
  have h2 := mem_of_categoryFilter _ _ _ h3
  exact date_isSome_of_mem_dateFilter _ _ _ _ h2

theorem null_dates_excluded_witness :
    c9SampleRow ∈
      pipelineFiltered sampleDB [] ⟨2024, 1, 1⟩ ⟨2024, 12, 31⟩ [] [] ∧
    c9SampleRow.date.isSome = true :=
  ⟨by decide,
   null_dates_excluded sampleDB [] ⟨2024, 1, 1⟩ ⟨2024, 12, 31⟩ [] []
     c9SampleRow (by decide)⟩

/-- For every cleaned row, the joins key a Transactions row to the dimension
    rows bearing the cleaned row's names. -/
lemma keyed_txn_exists (raw : List RawRow) (c : Txn)
    (hc : c ∈ raw.map cleanRow) :
    (∃ a ∈ (buildDB raw).accounts, a.account_name = c.account_name ∧
      ∃ t ∈ (buildDB raw).transactions, t.account_id = a.account_id) ∧
    (∃ cat ∈ (buildDB raw).categories, cat.category_name = c.category_name ∧
      ∃ t ∈ (buildDB raw).transactions, t.category_id = cat.category_id) := by
  simp only [buildDB]
  obtain ⟨a, hfa, haname, hamem⟩ := acc_filter_singleton _ c hc
  obtain ⟨cat, hfc, hcname, hcmem⟩ := cat_filter_singleton _ c hc
  have hpw := mem_mergeAccounts_intro _ _ c a hc hamem haname
  have ht := mem_mergeCategories_intro _ _ (c, a.account_id) cat hpw hcmem
    (by simpa using hcname)
  exact ⟨⟨a, hamem, haname, ⟨_, ht, rfl⟩⟩, ⟨cat, hcmem, hcname, ⟨_, ht, rfl⟩⟩⟩

/-- C10: after ingestion's field cleaning the four text columns are never
    null (the fields are total strings in the embedding): a missing cell is
    coerced to the literal string "nan" and trimmed, so a row with an empty
    account_name or category_name cell yields a dimension row literally named
    "nan" and a Transactions row keyed to it. -/
theorem missing_names_become_nan (files : List CSVFile)
    (tables : List (List RawRow)) (db : DB) (raw : RawRow)
    (h2 : processFiles files = .ok tables) (h1 : main files = .ok db)
    (hraw : raw ∈ tables.flatten) :
    cleanStr none = chars "nan"
    ∧ (cellAt raw 2 = none →
        (cleanRow raw).account_name = chars "nan" ∧
        ∃ a ∈ db.accounts, a.account_name = chars "nan" ∧
          ∃ t ∈ db.transactions, t.account_id = a.account_id)
    ∧ (cellAt raw 3 = none →
        (cleanRow raw).category_name = chars "nan" ∧
        ∃ c ∈ db.categories, c.category_name = chars "nan" ∧
          ∃ t ∈ db.transactions, t.category_id = c.category_id) := by
  obtain ⟨tables', hpf, hdb⟩ := main_ok files db h1
  rw [h2] at hpf
  cases hpf
  subst hdb
  refine ⟨rfl, fun hcell => ?_, fun hcell => ?_⟩
  · have hname : (cleanRow raw).account_name = chars "nan" := by
      simp [cleanRow, hcell, cleanStr]
    refine ⟨hname, ?_⟩
    have hc : cleanRow raw ∈ tables.flatten.map cleanRow :=
      List.mem_map_of_mem _ hraw
    obtain ⟨⟨a, hamem, haname, ht⟩, -⟩ := keyed_txn_exists _ _ hc
    exact ⟨a, hamem, by rw [haname, hname], ht⟩
  · have hname : (cleanRow raw).category_name = chars "nan" := by
      simp [cleanRow, hcell, cleanStr]
    refine ⟨hname, ?_⟩
    have hc : cleanRow raw ∈ tables.flatten.map cleanRow :=
      List.mem_map_of_mem _ hraw
    obtain ⟨-, ⟨cat, hcmem, hcname, ht⟩⟩ := keyed_txn_exists _ _ hc
    exact ⟨cat, hcmem, by rw [hcname, hname], ht⟩

theorem missing_names_become_nan_witness :
    processFiles [nanFile] = .ok [nanFile.rows] ∧
    main [nanFile] = .ok nanDB ∧
    nanRow ∈ [nanFile.rows].flatten ∧
    (cleanStr none = chars "nan"
     ∧ (cellAt nanRow 2 = none →
         (cleanRow nanRow).account_name = chars "nan" ∧
         ∃ a ∈ nanDB.accounts, a.account_name = chars "nan" ∧
           ∃ t ∈ nanDB.transactions, t.account_id = a.account_id)
     ∧ (cellAt nanRow 3 = none →
         (cleanRow nanRow).category_name = chars "nan" ∧
         ∃ c ∈ nanDB.categories, c.category_name = chars "nan" ∧
           ∃ t ∈ nanDB.transactions, t.category_id = c.category_id)) :=
  ⟨by decide, by decide, by decide,
   missing_names_become_nan [nanFile] [nanFile.rows] nanDB nanRow
     (by decide) (by decide) (by decide)⟩

end FinDash
